import Mathlib

/-!
# Verification of the weyland-p5000 relay engine

Shallow embedding of `src/main.rs`: a transparent Unix-socket relay that
forwards bytes and ancillary file descriptors between a child process and a
real display-protocol socket.  Kernel I/O (recvmsg/sendmsg/poll results) is
modelled by explicit scripted outcomes; file descriptors are modelled by
naturals; byte buffers by lists of naturals.  Every sendmsg call site is
additionally recorded in a `sends` trace carrying exactly the arguments the
source hands to `sendmsg` (the attached ScmRights fds and the byte payload),
so that ordering and handle-conservation properties can be stated.
-/

namespace WeylandP5000

/-- Embedding of `struct BufferedMessage { fds: Vec<OwnedFd>, bytes: VecDeque<u8> }`.
Owned fds are modelled as naturals, bytes as a list of naturals. -/
structure BufferedMessage where
  fds : List Nat
  bytes : List Nat
deriving DecidableEq, Repr

/-- Embedding of `struct ProxiedConnection`: the two optional socket endpoints,
the connect-completion flag and the two outbound queues (front of the
`VecDeque` at the head of the list). -/
structure ProxiedConnection where
  parent : Option Nat
  child : Option Nat
  parent_connected : Bool
  to_parent : List BufferedMessage
  to_child : List BufferedMessage
deriving DecidableEq, Repr

/-- Poll flags relevant to the event loop: `PollFlags::IN/OUT/HUP/ERR`. -/
structure PollFlags where
  hasIn : Bool := false
  hasOut : Bool := false
  hasHup : Bool := false
  hasErr : Bool := false
deriving DecidableEq, Repr

/-- Outcome of one `recvmsg` call, as distinguished by `transfer_or_queue`:
`reset` is `Errno::CONNRESET`; `block` is `WOULDBLOCK`/`AGAIN`; `fatalErr`
is any other errno (the source panics); `ok bytes fds` is a successful
receive of `bytes` (so `recv.bytes = bytes.length`) carrying the ScmRights
fds `fds`. -/
inductive RecvResult where
  | reset
  | block
  | fatalErr
  | ok (bytes : List Nat) (fds : List Nat)
deriving DecidableEq, Repr

/-- Outcome of one `sendmsg` call: `sent n` is `Ok(n)`; `reset` is
`Errno::CONNRESET`; `block` is `WOULDBLOCK`/`AGAIN`; `fatalErr` is any other
errno (the source panics). -/
inductive SendResult where
  | sent (n : Nat)
  | reset
  | block
  | fatalErr
deriving DecidableEq, Repr

/-- Result of one iteration of a `loop` body: `cont s` means the loop runs
again from state `s`, `stop s` means the enclosing function returns with
state `s`, `fatal` means the process panics. -/
inductive Step (σ : Type) where
  | cont (s : σ)
  | stop (s : σ)
  | fatal
deriving DecidableEq, Repr

/-- State mutated by `transfer_or_queue`: the `from` and `to` endpoint options
(`&mut Option<OwnedFd>`), the direction's outbound queue, and the trace of
arguments handed to `sendmsg` (oldest first). -/
structure RelayState where
  fromFd : Option Nat
  toFd : Option Nat
  queued : List BufferedMessage
  sends : List BufferedMessage
deriving DecidableEq, Repr

/-- One iteration of the receive loop in `transfer_or_queue`
(src/main.rs lines 158-219): check both endpoints are present, receive one
chunk, and either close on reset/EOF, stop on would-block, panic on an
unexpected errno, or attempt one immediate `sendmsg` of the chunk together
with its fds.  On `Ok(0)`/reset from the send both endpoints are taken; on a
send `Ok(sent)` with `sent != bytes.len()` the unsent tail is queued with no
fds (and, as in the source, the loop continues — there is no `return` in that
arm); on send would-block the whole chunk with its fds is queued and the
function returns.  Slicing `bytes[sent..]` is total here via `List.drop`. -/
def transferStep (ev : RecvResult × SendResult) (s : RelayState) : Step RelayState :=
  if s.fromFd.isNone || s.toFd.isNone then .stop s
  else
    match ev.1 with
    | .reset => .stop { s with fromFd := none, toFd := none }
    | .block => .stop s
    | .fatalErr => .fatal
    | .ok bs fs =>
      if bs.length = 0 then .stop { s with fromFd := none, toFd := none }
      else
        let s := { s with sends := s.sends ++ [⟨fs, bs⟩] }
        match ev.2 with
        | .sent 0 => .stop { s with fromFd := none, toFd := none }
        | .reset => .stop { s with fromFd := none, toFd := none }
        | .sent n =>
          if n ≠ bs.length then
            .cont { s with queued := s.queued ++ [⟨[], bs.drop n⟩] }
          else
            .cont s
        | .block => .stop { s with queued := s.queued ++ [⟨fs, bs⟩] }
        | .fatalErr => .fatal

/-- The receive loop of `transfer_or_queue`, driven by a finite script of
kernel outcomes (one receive outcome and one send outcome per iteration; the
send outcome is consulted only when the receive succeeds with data).  When
the script is exhausted while the loop would continue, the current state is
returned as `cont`. -/
def transferLoop : List (RecvResult × SendResult) → RelayState → Step RelayState
  | [], s => .cont s
  | ev :: evs, s =>
    match transferStep ev s with
    | .cont s' => transferLoop evs s'
    | .stop s' => .stop s'
    | .fatal => .fatal

/-- Embedding of `fn transfer_or_queue` (src/main.rs lines 145-220): a no-op
unless the read side reported `PollFlags::IN`, otherwise the receive loop. -/
def transfer_or_queue (from_flags : PollFlags) (script : List (RecvResult × SendResult))
    (s : RelayState) : Step RelayState :=
  if !from_flags.hasIn then .stop s else transferLoop script s

/-- State mutated by `drain_queue`: the destination endpoint option
(`&mut Option<OwnedFd>`), the queue, and the `sendmsg` argument trace. -/
structure DrainState where
  toFd : Option Nat
  queued : List BufferedMessage
  sends : List BufferedMessage
deriving DecidableEq, Repr

/-- One iteration of the send loop in `drain_queue` (src/main.rs lines
228-262): if the endpoint is gone or the queue empty, return; otherwise pop
the front message and send its full byte payload (front and back slices of
the `VecDeque` concatenated) together with its fds.  `Ok(0)`/reset takes the
destination endpoint only; `Ok(sent)` with `sent != bytes.len()` drains the
sent bytes and pushes the remainder with no fds to the BACK of the queue and
the loop continues (as in the source — `push_back`, no `return`);
would-block pushes the popped message back to the front and returns. -/
def drainStep (ev : SendResult) (s : DrainState) : Step DrainState :=
  if s.toFd.isNone then .stop s
  else
    match s.queued with
    | [] => .stop s
    | m :: rest =>
      let s := { s with queued := rest, sends := s.sends ++ [m] }
      match ev with
      | .sent 0 => .stop { s with toFd := none }
      | .reset => .stop { s with toFd := none }
      | .sent n =>
        if n ≠ m.bytes.length then
          .cont { s with queued := rest ++ [⟨[], m.bytes.drop n⟩] }
        else
          .cont s
      | .block => .stop { s with queued := m :: rest }
      | .fatalErr => .fatal

/-- The send loop of `drain_queue`, driven by a finite script of send
outcomes (one per iteration). -/
def drainLoop : List SendResult → DrainState → Step DrainState
  | [], s => .cont s
  | ev :: evs, s =>
    match drainStep ev s with
    | .cont s' => drainLoop evs s'
    | .stop s' => .stop s'
    | .fatal => .fatal

/-- Embedding of `fn drain_queue` (src/main.rs lines 223-263): a no-op unless
the destination reported `PollFlags::OUT`, otherwise the send loop. -/
def drain_queue (to_flags : PollFlags) (script : List SendResult)
    (s : DrainState) : Step DrainState :=
  if !to_flags.hasOut then .stop s else drainLoop script s

/-- Projection of a loop result to the state in which the enclosing function
returned (whether the modelled loop stopped or its script was exhausted);
`none` records a panic. -/
def Step.state? : Step σ → Option σ
  | .cont s => some s
  | .stop s => some s
  | .fatal => none

/-- One event-loop iteration's handling of a single connection (src/main.rs
lines 109-126): on poll-reported HUP/ERR on either endpoint both handles are
taken and the connection is skipped; otherwise a pending non-blocking connect
completes when the parent reports writable; and only when `parent_connected`
holds do the two `transfer_or_queue` calls and the two `drain_queue` calls
run, threading `&mut conn.parent` / `&mut conn.child` / the two queues
exactly as at the call sites.  Scripts `s1`/`s2` drive the parent→child and
child→parent relays, `s3`/`s4` the parent-side and child-side drains;
`none` records a panic in any of the four calls. -/
def connStep (parent_flags child_flags : PollFlags)
    (s1 s2 : List (RecvResult × SendResult)) (s3 s4 : List SendResult)
    (conn : ProxiedConnection) : Option ProxiedConnection :=
  if parent_flags.hasHup || parent_flags.hasErr || child_flags.hasHup || child_flags.hasErr then
    some { conn with child := none, parent := none }
  else
    let conn :=
      if !conn.parent_connected && parent_flags.hasOut then
        { conn with parent_connected := true }
      else conn
    if conn.parent_connected then
      match (transfer_or_queue parent_flags s1
        { fromFd := conn.parent, toFd := conn.child, queued := conn.to_child, sends := [] }).state? with
      | none => none
      | some r1 =>
        match (transfer_or_queue child_flags s2
          { fromFd := r1.toFd, toFd := r1.fromFd, queued := conn.to_parent, sends := [] }).state? with
        | none => none
        | some r2 =>
          match (drain_queue parent_flags s3
            { toFd := r2.toFd, queued := r2.queued, sends := [] }).state? with
          | none => none
          | some d1 =>
            match (drain_queue child_flags s4
              { toFd := r2.fromFd, queued := r1.queued, sends := [] }).state? with
            | none => none
            | some d2 =>
              some { parent := d1.toFd, child := d2.toFd,
                     parent_connected := conn.parent_connected,
                     to_parent := d1.queued, to_child := d2.queued }
    else
      some conn

/-- Poll interest computed per connection at the top of each event-loop
iteration (src/main.rs lines 62-70): read interest always on both endpoints;
write interest on the parent (server-side) endpoint when not yet connected or
its outbound queue is non-empty, and on the child endpoint when its outbound
queue is non-empty.  First component: parent flags; second: child flags. -/
def connInterest (conn : ProxiedConnection) : PollFlags × PollFlags :=
  let parent_flags : PollFlags := { hasIn := true }
  let child_flags : PollFlags := { hasIn := true }
  let parent_flags :=
    if !conn.parent_connected || !conn.to_parent.isEmpty then
      { parent_flags with hasOut := true }
    else parent_flags
  let child_flags :=
    if !conn.to_child.isEmpty then
      { child_flags with hasOut := true }
    else child_flags
  (parent_flags, child_flags)

/-- The two poll entries of one connection (src/main.rs lines 72-75).  The
source dereferences both handle options with `.unwrap()`; an absent handle is
modelled as `none` (the panic). -/
def pollEntries (conn : ProxiedConnection) : Option (List (Nat × PollFlags)) := do
  let p ← conn.parent
  let c ← conn.child
  some [(p, (connInterest conn).1), (c, (connInterest conn).2)]

/-- The poll entries contributed by the connection table in order, as
produced by `poll_fds.extend(connections.iter().flat_map(..))`; `none` as
soon as any connection's `.unwrap()` would panic. -/
def pollEntriesList : List ProxiedConnection → Option (List (Nat × PollFlags))
  | [] => some []
  | conn :: rest =>
    match pollEntries conn, pollEntriesList rest with
    | some e, some es => some (e ++ es)
    | _, _ => none

/-- The full poll set of one iteration (src/main.rs lines 60-78): the two
entries of every connection in table order, then the listening socket with
read interest. -/
def buildPollSet (serverFd : Nat) (conns : List ProxiedConnection) :
    Option (List (Nat × PollFlags)) :=
  match pollEntriesList conns with
  | none => none
  | some entries => some (entries ++ [(serverFd, { hasIn := true })])

/-- End-of-iteration pruning (src/main.rs line 129):
`connections.retain(|c| c.child.is_some() && c.parent.is_some())`. -/
def pruneConnections (conns : List ProxiedConnection) : List ProxiedConnection :=
  conns.filter (fun c => c.child.isSome && c.parent.isSome)

/-- Result of `child.try_wait()`: `exited` is `Ok(Some(status))`, `running`
is `Ok(None)`, `failed` is `Err(_)`. -/
inductive TryWaitResult where
  | exited
  | running
  | failed
deriving DecidableEq, Repr

/-- What the tail of an event-loop iteration does: `exitCleanly` is the
branch that drops the listening socket, unlinks the substitute socket path
and calls `exit(0)`; `keepLooping` is every other case. -/
inductive LoopTail where
  | exitCleanly
  | keepLooping
deriving DecidableEq, Repr

/-- The shutdown check at the end of every iteration (src/main.rs lines
132-140): exit cleanly exactly when `try_wait` reports the child exited and
the connection table is empty. -/
def shutdownCheck (w : TryWaitResult) (conns : List ProxiedConnection) : LoopTail :=
  match w, conns.length with
  | .exited, 0 => .exitCleanly
  | .exited, _ + 1 => .keepLooping
  | .running, _ => .keepLooping
  | .failed, _ => .keepLooping

/-- Outcome of the 30-second `poll` call: `ready n` is `Ok(n)` (with `n = 0`
the timeout case), `interrupted` is `Errno::INTR`, `failed` any other
errno. -/
inductive PollResult where
  | ready (n : Nat)
  | interrupted
  | failed
deriving DecidableEq, Repr

/-- Dispatch on the `poll` result (src/main.rs lines 81-85): any `Ok` —
including a bare 30-second timeout, `Ok(0)` — proceeds with the iteration
(whose tail runs the shutdown check); `EINTR` restarts the loop; any other
errno panics. -/
inductive PollDispatch where
  | proceed
  | retryLoop
  | fatalStop
deriving DecidableEq, Repr

/-- How the event loop reacts to each `poll` outcome. -/
def pollDispatch : PollResult → PollDispatch
  | .ready _ => .proceed
  | .interrupted => .retryLoop
  | .failed => .fatalStop

/-! ## Theorems about the claims -/

/-- C1: evaluation refuting the claimed drain behavior.  With destination
present and queue `[⟨[],[1,2,3]⟩, ⟨[],[9]⟩]`, a partial send of 1 byte of the
front message pushes the remainder `[2,3]` to the BACK of the queue (behind
the later message `[9]`) and the loop CONTINUES; a second send outcome then
delivers `[9]` to the wire before the remainder `[2,3]`.  The claim (and the
spec) say the remainder goes to the front and draining stops. -/
theorem drain_partial_send_requeues_at_back_and_continues :
    drainStep (.sent 1) { toFd := some 7, queued := [⟨[], [1,2,3]⟩, ⟨[], [9]⟩], sends := [] } =
      .cont { toFd := some 7, queued := [⟨[], [9]⟩, ⟨[], [2,3]⟩],
              sends := [⟨[], [1,2,3]⟩] } ∧
    drainLoop [.sent 1, .sent 1]
        { toFd := some 7, queued := [⟨[], [1,2,3]⟩, ⟨[], [9]⟩], sends := [] } =
      .cont { toFd := some 7, queued := [⟨[], [2,3]⟩],
              sends := [⟨[], [1,2,3]⟩, ⟨[], [9]⟩] } :=
  ⟨rfl, rfl⟩

/-- C2: evaluation refuting the claimed stop.  When the immediate send of a
received chunk `[1,2,3]` accepts only 1 byte, the unsent tail `[2,3]` is
queued with no handles (that part of the claim holds), but the step is
`cont`, not `stop`: the receive loop runs again.  With a second receive of
`[4,5]` fully accepted by its immediate send, `[4,5]` reaches the wire while
`[2,3]` is still queued, so the later bytes overtake the queued tail. -/
theorem relay_partial_send_continues_loop :
    transferStep (.ok [1,2,3] [], .sent 1)
        { fromFd := some 1, toFd := some 2, queued := [], sends := [] } =
      .cont { fromFd := some 1, toFd := some 2, queued := [⟨[], [2,3]⟩],
              sends := [⟨[], [1,2,3]⟩] } ∧
    transferLoop [(.ok [1,2,3] [], .sent 1), (.ok [4,5] [], .sent 2)]
        { fromFd := some 1, toFd := some 2, queued := [], sends := [] } =
      .cont { fromFd := some 1, toFd := some 2, queued := [⟨[], [2,3]⟩],
              sends := [⟨[], [1,2,3]⟩, ⟨[], [4,5]⟩] } :=
  ⟨rfl, rfl⟩

/-- C6: receive outcomes in the relay.  On a live direction (both endpoint
options present), a connection-reset receive error or a zero-length receive
takes BOTH endpoint options and stops the loop; a would-block receive stops
the loop with the state untouched; any other receive error is fatal to the
whole process. -/
theorem relay_recv_outcomes (st : RelayState) (sev : SendResult) (fs : List Nat)
    (h1 : st.fromFd.isSome = true) (h2 : st.toFd.isSome = true) :
    transferStep (.reset, sev) st = .stop { st with fromFd := none, toFd := none } ∧
    transferStep (.ok [] fs, sev) st = .stop { st with fromFd := none, toFd := none } ∧
    transferStep (.block, sev) st = .stop st ∧
    transferStep (.fatalErr, sev) st = .fatal := by
  obtain ⟨a, ha⟩ := Option.isSome_iff_exists.mp h1
  obtain ⟨b, hb⟩ := Option.isSome_iff_exists.mp h2
  refine ⟨?_, ?_, ?_, ?_⟩ <;> simp [transferStep, ha, hb]

/-- Witness for `relay_recv_outcomes` at a concrete live state. -/
theorem relay_recv_outcomes_witness :
    (some 1 : Option Nat).isSome = true ∧ (some 2 : Option Nat).isSome = true ∧
    transferStep (.block, .block) ⟨some 1, some 2, [], []⟩ =
      .stop ⟨some 1, some 2, [], []⟩ :=
  ⟨rfl, rfl, (relay_recv_outcomes ⟨some 1, some 2, [], []⟩ .block [] rfl rfl).2.2.1⟩

/-- C7: when the immediate send of a non-empty received chunk would block,
the entire chunk — its bytes together with all its received fds — is pushed
as one message at the back of the direction's queue and the loop stops. -/
theorem relay_send_block_enqueues_whole_chunk (st : RelayState) (bs fs : List Nat)
    (h1 : st.fromFd.isSome = true) (h2 : st.toFd.isSome = true) (hbs : bs ≠ []) :
    transferStep (.ok bs fs, .block) st =
      .stop { st with queued := st.queued ++ [⟨fs, bs⟩],
                      sends := st.sends ++ [⟨fs, bs⟩] } := by
  obtain ⟨a, ha⟩ := Option.isSome_iff_exists.mp h1
  obtain ⟨b, hb⟩ := Option.isSome_iff_exists.mp h2
  simp [transferStep, ha, hb, List.length_eq_zero, hbs]

/-- Witness for `relay_send_block_enqueues_whole_chunk` at a concrete
state with a two-fd chunk. -/
theorem relay_send_block_enqueues_whole_chunk_witness :
    (some 1 : Option Nat).isSome = true ∧ (some 2 : Option Nat).isSome = true ∧
    ([1, 2] : List Nat) ≠ [] ∧
    transferStep (.ok [1, 2] [5, 6], .block)
        ⟨some 1, some 2, [⟨[], [0]⟩], []⟩ =
      .stop ⟨some 1, some 2, [⟨[], [0]⟩, ⟨[5, 6], [1, 2]⟩], [⟨[5, 6], [1, 2]⟩]⟩ :=
  ⟨rfl, rfl, by decide,
    relay_send_block_enqueues_whole_chunk ⟨some 1, some 2, [⟨[], [0]⟩], []⟩ [1, 2] [5, 6]
      rfl rfl (by decide)⟩

/-- C3 counterexample: `drain_queue` on a zero-length send success takes only
the DESTINATION endpoint option.  On a live connection with a queued
to-parent message, an iteration whose parent-side drain returns `Ok(0)`
leaves the child endpoint present (`some 2`), so the claim that both handle
options become absent is false as stated. -/
theorem drain_reset_leaves_source_endpoint :
    connStep ⟨false, true, false, false⟩ ⟨false, false, false, false⟩ [] [] [.sent 0] []
        { parent := some 1, child := some 2, parent_connected := true,
          to_parent := [⟨[], [1]⟩], to_child := [] } =
      some { parent := none, child := some 2, parent_connected := true,
             to_parent := [], to_child := [] } ∧
    ¬ (∀ c' : ProxiedConnection,
        connStep ⟨false, true, false, false⟩ ⟨false, false, false, false⟩ [] [] [.sent 0] []
            { parent := some 1, child := some 2, parent_connected := true,
              to_parent := [⟨[], [1]⟩], to_child := [] } = some c' →
        c'.parent = none ∧ c'.child = none) := by
  refine ⟨rfl, fun h => ?_⟩
  have h2 := (h { parent := none, child := some 2, parent_connected := true,
                  to_parent := [], to_child := [] } rfl).2
  simp at h2

/-- C3 amended: in `drain_queue`, a zero-length send success or a
connection-reset send error takes the destination endpoint option only (the
popped message is consumed) and draining aborts; the other endpoint of the
connection is not touched by `drain_queue` and is closed only because the
connection, now missing one handle, is removed by the end-of-iteration
prune. -/
theorem drain_zero_or_reset_closes_destination (d : Nat) (m : BufferedMessage)
    (rest tr : List BufferedMessage) (ev : SendResult)
    (hev : ev = .sent 0 ∨ ev = .reset) :
    drainStep ev { toFd := some d, queued := m :: rest, sends := tr } =
      .stop { toFd := none, queued := rest, sends := tr ++ [m] } ∧
    ∀ (conns : List ProxiedConnection) (c : ProxiedConnection),
      c.parent = none → c ∉ pruneConnections conns := by
  constructor
  · rcases hev with h | h <;> subst h <;> simp [drainStep]
  · intro conns c hc hmem
    simp [pruneConnections, List.mem_filter, hc] at hmem

/-- Witness for `drain_zero_or_reset_closes_destination` on a concrete
one-message queue with a zero-length send success. -/
theorem drain_zero_or_reset_closes_destination_witness :
    ((SendResult.sent 0) = .sent 0 ∨ (SendResult.sent 0) = .reset) ∧
    drainStep (.sent 0) { toFd := some 1, queued := [⟨[], [1]⟩], sends := [] } =
      .stop { toFd := none, queued := [], sends := [⟨[], [1]⟩] } :=
  ⟨Or.inl rfl,
    (drain_zero_or_reset_closes_destination 1 ⟨[], [1]⟩ [] [] (.sent 0) (Or.inl rfl)).1⟩

/-- C5: while a connection's server-side connect is still completing
(`parent_connected = false`) and poll reported no HUP/ERR, an iteration that
sees no writable readiness on the server side leaves the connection exactly
unchanged — no relay and no drain run in either direction and the flag stays
false; and whenever the server side does report writable, the connection that
survives the iteration has `parent_connected = true` (forwarding has been
enabled). -/
theorem connecting_suppresses_relay_and_drain (pf cf : PollFlags)
    (s1 s2 : List (RecvResult × SendResult)) (s3 s4 : List SendResult)
    (conn : ProxiedConnection) (hpc : conn.parent_connected = false) :
    ((pf.hasHup || pf.hasErr || cf.hasHup || cf.hasErr) = true →
       connStep pf cf s1 s2 s3 s4 conn = some { conn with child := none, parent := none }) ∧
    ((pf.hasHup || pf.hasErr || cf.hasHup || cf.hasErr) = false → pf.hasOut = false →
       connStep pf cf s1 s2 s3 s4 conn = some conn) ∧
    (∀ c' : ProxiedConnection, connStep pf cf s1 s2 s3 s4 conn = some c' →
       pf.hasOut = false → c'.parent_connected = false) ∧
    (∀ c' : ProxiedConnection, connStep pf cf s1 s2 s3 s4 conn = some c' →
       (pf.hasHup || pf.hasErr || cf.hasHup || cf.hasErr) = false → pf.hasOut = true →
       c'.parent_connected = true) := by
  refine ⟨?_, ?_, ?_, ?_⟩
  · intro hh
    simp [connStep, hh]
  · intro hh hout
    simp [connStep, hh, hpc, hout]
  · intro c' h hout
    cases hb : (pf.hasHup || pf.hasErr || cf.hasHup || cf.hasErr) with
    | true =>
      simp [connStep, hb] at h
      subst h
      exact hpc
    | false =>
      simp [connStep, hb, hpc, hout] at h
      subst h
      exact hpc
  · intro c' h hh hout
    simp [connStep, hh, hpc, hout] at h
    split at h
    · exact Option.noConfusion h
    split at h
    · exact Option.noConfusion h
    split at h
    · exact Option.noConfusion h
    split at h
    · exact Option.noConfusion h
    injection h with h
    subst h
    rfl

/-- Witness for `connecting_suppresses_relay_and_drain` on a concrete
connecting connection with pending readable data that is not relayed. -/
theorem connecting_suppresses_relay_and_drain_witness :
    (({ parent := some 1, child := some 2, parent_connected := false,
        to_parent := [], to_child := [] } : ProxiedConnection).parent_connected = false) ∧
    connStep ⟨true, false, false, false⟩ ⟨true, false, false, false⟩
        [(.ok [1] [], .sent 1)] [] [] []
        ({ parent := some 1, child := some 2, parent_connected := false,
           to_parent := [], to_child := [] } : ProxiedConnection) =
      some { parent := some 1, child := some 2, parent_connected := false,
             to_parent := [], to_child := [] } :=
  ⟨rfl,
    (connecting_suppresses_relay_and_drain ⟨true, false, false, false⟩
        ⟨true, false, false, false⟩ [(.ok [1] [], .sent 1)] [] [] []
        ({ parent := some 1, child := some 2, parent_connected := false,
           to_parent := [], to_child := [] } : ProxiedConnection) rfl).2.1 rfl rfl⟩

/-- C9: the clean-shutdown branch — the only branch that closes the listening
socket, unlinks the substitute socket path and exits with status 0 — is taken
exactly when `try_wait` reports the child exited and the connection table is
empty; and the 30-second poll timeout (`Ok(0)`) merely proceeds with the
iteration like any other successful poll, so a timeout alone never triggers
shutdown. -/
theorem shutdown_exactly_on_child_exit_and_empty_table :
    (∀ (w : TryWaitResult) (conns : List ProxiedConnection),
       shutdownCheck w conns = .exitCleanly ↔ (w = .exited ∧ conns = [])) ∧
    (∀ n : Nat, pollDispatch (.ready n) = .proceed) := by
  constructor
  · intro w conns
    cases w <;> cases conns <;> simp [shutdownCheck]
  · intro n
    rfl

/-- C8: the poll interest set.  Each live connection contributes exactly its
two endpoint entries, read interest is always requested on both, write
interest on the parent (server-side) endpoint exactly when it is not yet
connected or its outbound queue is non-empty, write interest on the child
endpoint exactly when its outbound queue is non-empty, and the listening
socket is the final entry with read interest only. -/
theorem poll_interest_spec :
    (∀ (conn : ProxiedConnection) (p c : Nat),
       conn.parent = some p → conn.child = some c →
       pollEntries conn = some [(p, (connInterest conn).1), (c, (connInterest conn).2)]) ∧
    (∀ conn : ProxiedConnection,
       (connInterest conn).1.hasIn = true ∧ (connInterest conn).2.hasIn = true ∧
       ((connInterest conn).1.hasOut = true ↔
          (conn.parent_connected = false ∨ conn.to_parent ≠ [])) ∧
       ((connInterest conn).2.hasOut = true ↔ conn.to_child ≠ [])) ∧
    (∀ (serverFd : Nat) (conns : List ProxiedConnection) (l : List (Nat × PollFlags)),
       buildPollSet serverFd conns = some l →
       l.getLast? = some (serverFd, { hasIn := true })) := by
  refine ⟨?_, ?_, ?_⟩
  · intro conn p c hp hc
    simp [pollEntries, hp, hc]
  · intro conn
    obtain ⟨p, c, pc, tp, tc⟩ := conn
    cases pc <;> cases tp <;> cases tc <;> simp [connInterest]
  · intro serverFd conns l h
    rw [buildPollSet] at h
    split at h
    · exact Option.noConfusion h
    · injection h with h
      subst h
      exact List.getLast?_concat _

/-- Witness for `poll_interest_spec` on a one-connection table. -/
theorem poll_interest_spec_witness :
    (({ parent := some 1, child := some 2, parent_connected := false,
        to_parent := [], to_child := [⟨[], [1]⟩] } : ProxiedConnection).parent = some 1) ∧
    pollEntries ({ parent := some 1, child := some 2, parent_connected := false,
                   to_parent := [], to_child := [⟨[], [1]⟩] } : ProxiedConnection) =
      some [(1, ⟨true, true, false, false⟩), (2, ⟨true, true, false, false⟩)] ∧
    ([(1, (⟨true, true, false, false⟩ : PollFlags)), (2, ⟨true, true, false, false⟩),
      (9, ⟨true, false, false, false⟩)] : List (Nat × PollFlags)).getLast? =
      some (9, { hasIn := true }) := by
  refine ⟨rfl, poll_interest_spec.1 _ 1 2 rfl rfl, ?_⟩
  exact poll_interest_spec.2.2 9
    [{ parent := some 1, child := some 2, parent_connected := false,
       to_parent := [], to_child := [⟨[], [1]⟩] }] _ rfl

/-- C10: after the end-of-iteration prune, every connection remaining in the
table has both its handle options present (a connection missing either is
removed by the `retain`), and on any table all of whose connections have both
handles present — which by the prune is every table the next iteration can
see — the poll-set construction never hits an absent handle. -/
theorem prune_keeps_only_fully_open_connections :
    (∀ (conns : List ProxiedConnection) (c : ProxiedConnection),
       c ∈ pruneConnections conns → c.parent.isSome = true ∧ c.child.isSome = true) ∧
    (∀ (serverFd : Nat) (conns : List ProxiedConnection),
       (∀ c ∈ conns, c.parent.isSome = true ∧ c.child.isSome = true) →
       (buildPollSet serverFd conns).isSome = true) := by
  constructor
  · intro conns c h
    simp only [pruneConnections, List.mem_filter, Bool.and_eq_true] at h
    exact ⟨h.2.2, h.2.1⟩
  · intro serverFd conns h
    have hlist : ∀ (cs : List ProxiedConnection),
        (∀ c ∈ cs, c.parent.isSome = true ∧ c.child.isSome = true) →
        (pollEntriesList cs).isSome = true := by
      intro cs
      induction cs with
      | nil => intro _; rfl
      | cons a l ih =>
        intro hcs
        obtain ⟨hp, hc⟩ := hcs a (List.mem_cons_self a l)
        obtain ⟨p, hp'⟩ := Option.isSome_iff_exists.mp hp
        obtain ⟨c, hc'⟩ := Option.isSome_iff_exists.mp hc
        have htail := ih (fun c hc => hcs c (List.mem_cons_of_mem a hc))
        obtain ⟨es, hes⟩ := Option.isSome_iff_exists.mp htail
        simp [pollEntriesList, pollEntries, hp', hc', hes]
    obtain ⟨es, hes⟩ := Option.isSome_iff_exists.mp (hlist conns h)
    simp [buildPollSet, hes]

/-- Witness for `prune_keeps_only_fully_open_connections`: pruning a table
with one half-closed connection, and building the poll set of a fully open
one-connection table. -/
theorem prune_keeps_only_fully_open_connections_witness :
    (∀ c ∈ ([{ parent := some 1, child := some 2, parent_connected := true,
               to_parent := [], to_child := [] }] : List ProxiedConnection),
       c.parent.isSome = true ∧ c.child.isSome = true) ∧
    (buildPollSet 9 [{ parent := some 1, child := some 2, parent_connected := true,
                       to_parent := [], to_child := [] }]).isSome = true := by
  refine ⟨by decide, ?_⟩
  exact prune_keeps_only_fully_open_connections.2 9
    [{ parent := some 1, child := some 2, parent_connected := true,
       to_parent := [], to_child := [] }] (by decide)

/-- C4: per-step handle conservation.  In the relay, the fds of a non-empty
received chunk on a live direction are attached to exactly the one immediate
`sendmsg` call; when that call would block they additionally form the single
message appended to the queue (the connection stays open and the fds are held
there for Drain), and in every other outcome no fd enters the queue (any
message the step appends carries no fds) — in particular on teardown
(zero-length or reset send) the queue is left as it was, so queued fds are
released only with the closing connection.  In Drain, the popped message's
fds are attached to exactly the one retry `sendmsg`; on would-block the same
message returns to the queue front unchanged, and in every other outcome
nothing carrying fds is requeued.  No path duplicates fds into both a send
and the queue, and no path drops them while the connection stays open. -/
theorem handle_conservation (bs fs : List Nat) (hbs : bs ≠ []) (a b : Nat)
    (q tr : List BufferedMessage) (sev : SendResult) (hsev : sev ≠ .fatalErr) :
    (∃ s' : RelayState,
      (transferStep (.ok bs fs, sev) ⟨some a, some b, q, tr⟩ = .cont s' ∨
       transferStep (.ok bs fs, sev) ⟨some a, some b, q, tr⟩ = .stop s') ∧
      s'.sends = tr ++ [⟨fs, bs⟩] ∧
      (sev = .block → s'.queued = q ++ [⟨fs, bs⟩] ∧ s'.fromFd = some a ∧ s'.toFd = some b) ∧
      (sev ≠ .block → ∀ m ∈ s'.queued, m ∈ q ∨ m.fds = []) ∧
      (s'.fromFd = none → s'.queued = q)) ∧
    (∀ (m : BufferedMessage) (rest tr2 : List BufferedMessage) (d : Nat) (sev2 : SendResult),
      sev2 ≠ .fatalErr →
      ∃ d' : DrainState,
        (drainStep sev2 ⟨some d, m :: rest, tr2⟩ = .cont d' ∨
         drainStep sev2 ⟨some d, m :: rest, tr2⟩ = .stop d') ∧
        d'.sends = tr2 ++ [m] ∧
        (sev2 = .block → d'.queued = m :: rest) ∧
        (sev2 ≠ .block → ∀ m2 ∈ d'.queued, m2 ∈ rest ∨ m2.fds = [])) := by
  constructor
  · cases sev with
    | fatalErr => exact absurd rfl hsev
    | reset =>
      refine ⟨⟨none, none, q, tr ++ [⟨fs, bs⟩]⟩, Or.inr ?_, rfl, ?_, ?_, ?_⟩
      · simp [transferStep, List.length_eq_zero, hbs]
      · simp
      · intro _ m hm
        exact Or.inl hm
      · intro _
        rfl
    | block =>
      refine ⟨⟨some a, some b, q ++ [⟨fs, bs⟩], tr ++ [⟨fs, bs⟩]⟩, Or.inr ?_, rfl, ?_, ?_, ?_⟩
      · simp [transferStep, List.length_eq_zero, hbs]
      · intro _
        exact ⟨rfl, rfl, rfl⟩
      · intro h
        exact absurd rfl h
      · intro h
        exact Option.noConfusion h
    | sent n =>
      rcases n with _ | n
      · refine ⟨⟨none, none, q, tr ++ [⟨fs, bs⟩]⟩, Or.inr ?_, rfl, ?_, ?_, ?_⟩
        · simp [transferStep, List.length_eq_zero, hbs]
        · simp
        · intro _ m hm
          exact Or.inl hm
        · intro _
          rfl
      · by_cases hn : n + 1 = bs.length
        · refine ⟨⟨some a, some b, q, tr ++ [⟨fs, bs⟩]⟩, Or.inl ?_, rfl, ?_, ?_, ?_⟩
          · simp [transferStep, List.length_eq_zero, hbs, ← hn]
          · simp
          · intro _ m hm
            exact Or.inl hm
          · intro h
            exact Option.noConfusion h
        · refine ⟨⟨some a, some b, q ++ [⟨[], bs.drop (n + 1)⟩], tr ++ [⟨fs, bs⟩]⟩,
            Or.inl ?_, rfl, ?_, ?_, ?_⟩
          · simp [transferStep, List.length_eq_zero, hbs, hn]
          · simp
          · intro _ m hm
            rcases List.mem_append.mp hm with h | h
            · exact Or.inl h
            · obtain rfl := List.mem_singleton.mp h
              exact Or.inr rfl
          · intro h
            exact Option.noConfusion h
  · intro m rest tr2 d sev2 hsev2
    cases sev2 with
    | fatalErr => exact absurd rfl hsev2
    | reset =>
      refine ⟨⟨none, rest, tr2 ++ [m]⟩, Or.inr ?_, rfl, ?_, ?_⟩
      · simp [drainStep]
      · simp
      · intro _ m2 hm2
        exact Or.inl hm2
    | block =>
      refine ⟨⟨some d, m :: rest, tr2 ++ [m]⟩, Or.inr ?_, rfl, ?_, ?_⟩
      · simp [drainStep]
      · intro _
        rfl
      · intro h
        exact absurd rfl h
    | sent n =>
      rcases n with _ | n
      · refine ⟨⟨none, rest, tr2 ++ [m]⟩, Or.inr ?_, rfl, ?_, ?_⟩
        · simp [drainStep]
        · simp
        · intro _ m2 hm2
          exact Or.inl hm2
      · by_cases hn : n + 1 = m.bytes.length
        · refine ⟨⟨some d, rest, tr2 ++ [m]⟩, Or.inl ?_, rfl, ?_, ?_⟩
          · simp [drainStep, ← hn]
          · simp
          · intro _ m2 hm2
            exact Or.inl hm2
        · refine ⟨⟨some d, rest ++ [⟨[], m.bytes.drop (n + 1)⟩], tr2 ++ [m]⟩,
            Or.inl ?_, rfl, ?_, ?_⟩
          · simp [drainStep, hn]
          · simp
          · intro _ m2 hm2
            rcases List.mem_append.mp hm2 with h | h
            · exact Or.inl h
            · obtain rfl := List.mem_singleton.mp h
              exact Or.inr rfl

/-- Witness for `handle_conservation` on a one-byte chunk with one fd whose
immediate send fully succeeds. -/
theorem handle_conservation_witness :
    ([1] : List Nat) ≠ [] ∧ (SendResult.sent 1) ≠ .fatalErr ∧
    ((∃ s' : RelayState,
      (transferStep (.ok [1] [5], .sent 1) ⟨some 0, some 1, [], []⟩ = .cont s' ∨
       transferStep (.ok [1] [5], .sent 1) ⟨some 0, some 1, [], []⟩ = .stop s') ∧
      s'.sends = [] ++ [⟨[5], [1]⟩] ∧
      ((SendResult.sent 1) = .block →
        s'.queued = [] ++ [⟨[5], [1]⟩] ∧ s'.fromFd = some 0 ∧ s'.toFd = some 1) ∧
      ((SendResult.sent 1) ≠ .block → ∀ m ∈ s'.queued, m ∈ ([] : List BufferedMessage) ∨ m.fds = []) ∧
      (s'.fromFd = none → s'.queued = [])) ∧
    (∀ (m : BufferedMessage) (rest tr2 : List BufferedMessage) (d : Nat) (sev2 : SendResult),
      sev2 ≠ .fatalErr →
      ∃ d' : DrainState,
        (drainStep sev2 ⟨some d, m :: rest, tr2⟩ = .cont d' ∨
         drainStep sev2 ⟨some d, m :: rest, tr2⟩ = .stop d') ∧
        d'.sends = tr2 ++ [m] ∧
        (sev2 = .block → d'.queued = m :: rest) ∧
        (sev2 ≠ .block → ∀ m2 ∈ d'.queued, m2 ∈ rest ∨ m2.fds = []))) :=
  ⟨by decide, by decide, handle_conservation [1] [5] (by decide) 0 1 [] [] (.sent 1) (by decide)⟩

end WeylandP5000
